import Mathlib

/-!
# Verification of the schema-driven entity management engine

Shallow embedding of the generic CRUD engine (`EntityManager.jsx`), the
transport adapter (`api.js`) and the entity schemas (SupplierManager,
StoreLimitManager, RawMaterialCostManager) of the repository.

JavaScript objects are modelled as association lists from field names to a
`Value` type (strings, integers, booleans); `undefined` is modelled as a
missing key (lookup returning `none`).  Network effects are made explicit:
each handler takes the outcome of its `apiCall`/`fetch` as an argument and
returns the successor state together with the list of requests it issued,
in order.
-/

namespace EntityCRUD

/-- A JavaScript field value as it occurs in the records handled by the
engine: a string, a number (the schemas only use integral numbers for the
claims under study; modelled as `Int`) or a boolean. -/
inductive Value where
  | str (s : String) : Value
  | num (n : Int) : Value
  | bool (b : Bool) : Value
deriving DecidableEq

/-- A JavaScript object (an entity record, a form draft, a parsed JSON
body): an association list from field names to values.  A missing key
models `undefined`. -/
def Record : Type := List (String × Value)

instance : DecidableEq Record := by
  unfold Record
  infer_instance

instance : Append Record := ⟨fun a b => List.append a b⟩

/-- `lookupField r k` models the JavaScript member access `r[k]`:
the value of the first binding of `k`, or `none` for `undefined`. -/
def lookupField : Record → String → Option Value
  | [], _ => none
  | (k, v) :: rest, g => if k = g then some v else lookupField rest g

/-- `setField r k v` models the object update `{ ...r, [k]: v }`:
replaces the binding of `k` (object keys are unique in JavaScript;
on the association list the first binding is the visible one), or
appends it when absent. -/
def setField : Record → String → Value → Record
  | [], k, v => [(k, v)]
  | (k', v') :: rest, k, v =>
      if k' = k then (k, v) :: rest else (k', v') :: setField rest k v

/-- JavaScript truthiness of a value, as used by `if (newFormData[field.name])`
and `result.error || ...`: the empty string, `0` and `false` are falsy. -/
def truthy : Value → Bool
  | Value.str s => decide (s ≠ "")
  | Value.num n => decide (n ≠ 0)
  | Value.bool b => b

/-- String coercion of a value as performed by JavaScript template literals
and `Array.prototype.join`; an absent value (`undefined`) prints as
`"undefined"`. -/
def valueToText : Value → String
  | Value.str s => s
  | Value.num n => toString n
  | Value.bool b => if b then "true" else "false"

/-- Coercion of a possibly-absent value to the text used in a URL path. -/
def valueToPathText : Option Value → String
  | some v => valueToText v
  | none => "undefined"

/-- `joinSlash l` models `l.join("/")` on an array of strings. -/
def joinSlash : List String → String
  | [] => ""
  | [x] => x
  | x :: xs => x ++ "/" ++ joinSlash xs

/-- The identifier path suffix built by `handleSubmit` and `handleDelete`:
`uniqueIdentifierFields.map(field => source[field]).join("/")`, in the
schema's declared field order. -/
def identifierPath (fields : List String) (source : Record) : String :=
  joinSlash (fields.map (fun f => valueToPathText (lookupField source f)))

/-- A form field declaration (`formFields` entry) of an entity schema. -/
structure FieldSpec where
  name : String
  label : String
  type : String
  required : Bool
  placeholder : Option String
  options : List (String × String)
  defaultValue : Option String
deriving DecidableEq

/-- A display column declaration (`displayFields` entry).  The optional
`format` functions of the source are render-only and not modelled. -/
structure DisplayFieldSpec where
  key : String
  label : String

/-- The declarative metadata a page passes to `EntityManager`. -/
structure EntitySchema where
  title : String
  entityName : String
  endpoint : String
  idField : String
  uniqueIdentifierFields : List String
  formFields : List FieldSpec
  displayFields : List DisplayFieldSpec

/-- The mutable state owned by one `EntityManager` instance:
`entities`, `formData`, `loading`, `error`, `isEditing`, `editId`,
`editIdentifier` (one `useState` each). -/
structure EngineState where
  entities : List Record
  formData : Record
  loading : Bool
  error : String
  isEditing : Bool
  editId : Option Value
  editIdentifier : Record
deriving DecidableEq

/-- The initial state of a freshly mounted `EntityManager`
(`useState([])`, `useState({})`, `useState(true)`, `useState("")`,
`useState(false)`, `useState(null)`, `useState({})`). -/
def initialState : EngineState :=
  { entities := [], formData := [], loading := true, error := "",
    isEditing := false, editId := none, editIdentifier := [] }

/-- An HTTP request issued through `apiCall`, as observed by the backend:
method string, endpoint path (relative to the API base), optional JSON
body. -/
structure Request where
  method : String
  path : String
  body : Option Record
deriving DecidableEq

/-- `new Date(s).toISOString().split("T")[0]` for the date values the
schemas produce (ISO-8601 UTC timestamps such as `"2024-03-05T00:00:00Z"`
or date-only `"YYYY-MM-DD"` strings): the round trip through `Date`
preserves the calendar date for such inputs, so the result is the prefix
of the string before the first `T`. -/
def isoToDateOnly (s : String) : String :=
  String.mk (s.data.takeWhile (fun c => c != 'T'))

/-- Date normalization applied by `handleEdit` to one draft value.  The
schemas only bind string values to `date` fields, so other values are
outside the modelled domain and left unchanged. -/
def normalizeDateValue : Value → Value
  | Value.str s => Value.str (isoToDateOnly s)
  | v => v

/-- One iteration of `handleEdit`'s `formFields.forEach` loop:
`if (field.type === "date" && newFormData[field.name])` replace the value
by its date-only normalization. -/
def editStep (fd : Record) (f : FieldSpec) : Record :=
  if f.type = "date" then
    match lookupField fd f.name with
    | some v => if truthy v then setField fd f.name (normalizeDateValue v) else fd
    | none => fd
  else fd

/-- The `identifier` object captured by `handleEdit`:
`uniqueIdentifierFields.forEach(field => identifier[field] = entity[field])`.
A field absent from the entity is bound to `undefined`, which the record
model represents by leaving the key out. -/
def captureIdentifier (fields : List String) (entity : Record) : Record :=
  fields.filterMap (fun f => (lookupField entity f).map (fun v => (f, v)))

/-- `handleEdit(entity)`: copies the entity into the form draft with date
fields normalized, switches to edit mode, records `entity._id` and
captures the identifier tuple.  (`window.scrollTo` has no state effect.) -/
def handleEdit (schema : EntitySchema) (st : EngineState) (entity : Record) :
    EngineState :=
  { st with
    formData := schema.formFields.foldl editStep entity,
    isEditing := true,
    editId := lookupField entity "_id",
    editIdentifier := captureIdentifier schema.uniqueIdentifierFields entity }

/-- `handleInputChange`: one controlled-input change event, storing the new
value under the input's name (for checkboxes the value is the `checked`
boolean, already a `Value.bool` here). -/
def handleInputChange (st : EngineState) (name : String) (value : Value) :
    EngineState :=
  { st with formData := setField st.formData name value }

/-- The state visible while `fetchEntities`'s request is in flight:
`setLoading(true); setError("")` have run, the `await` has not returned. -/
def fetchStart (st : EngineState) : EngineState :=
  { st with loading := true, error := "" }

/-- The `GET {endpoint}` request issued by `fetchEntities`. -/
def fetchRequest (schema : EntitySchema) : Request :=
  { method := "GET", path := schema.endpoint, body := none }

/-- `fetchEntities()`, given the outcome of `apiCall(endpoint)`: on success
replaces `entities`; on failure sets the fetch error message; `finally`
clears `loading` on both paths.  Returns the successor state and the
requests issued. -/
def fetchEntities (schema : EntitySchema) (st : EngineState)
    (result : Except String (List Record)) : EngineState × List Request :=
  let st1 := fetchStart st
  match result with
  | Except.ok data =>
      ({ st1 with entities := data, loading := false }, [fetchRequest schema])
  | Except.error msg =>
      ({ st1 with
          error := "Failed to fetch " ++ schema.entityName ++ "s: " ++ msg,
          loading := false },
       [fetchRequest schema])

/-- The state after `handleSubmit`'s initial `setError("")`, while its
request is in flight. -/
def submitStart (st : EngineState) : EngineState :=
  { st with error := "" }

/-- The request issued by `handleSubmit`: in edit mode a `PUT` to
`{endpoint}/{identifierPath}` built from the captured `editIdentifier`,
otherwise a `POST` to `{endpoint}`; the body is the form draft. -/
def submitRequest (schema : EntitySchema) (st : EngineState) : Request :=
  if st.isEditing then
    { method := "PUT",
      path := schema.endpoint ++ "/" ++
        identifierPath schema.uniqueIdentifierFields st.editIdentifier,
      body := some st.formData }
  else
    { method := "POST", path := schema.endpoint, body := some st.formData }

/-- `handleSubmit(e)`, given the outcome of its `apiCall` and, when that
succeeds, the outcome of the `fetchEntities()` it triggers: on success
clears the draft, leaves edit mode, clears `editId` and `editIdentifier`
and refetches; on failure sets the save error message and touches nothing
else. -/
def handleSubmit (schema : EntitySchema) (st : EngineState)
    (apiResult : Except String Unit)
    (fetchResult : Except String (List Record)) : EngineState × List Request :=
  let st1 := submitStart st
  let req := submitRequest schema st1
  match apiResult with
  | Except.ok _ =>
      let st2 := { st1 with
                   formData := [],
                   isEditing := false,
                   editId := none,
                   editIdentifier := [] }
      let p := fetchEntities schema st2 fetchResult
      (p.1, req :: p.2)
  | Except.error msg =>
      ({ st1 with error := "Failed to save " ++ schema.entityName ++ ": " ++ msg },
       [req])

/-- The state after `handleDelete`'s `setError("")` (inside the confirmed
branch), while its request is in flight. -/
def deleteStart (st : EngineState) : EngineState :=
  { st with error := "" }

/-- The `DELETE {endpoint}/{identifierPath}` request issued by
`handleDelete`, with the identifier values taken from the clicked entity
row. -/
def deleteRequest (schema : EntitySchema) (entity : Record) : Request :=
  { method := "DELETE",
    path := schema.endpoint ++ "/" ++
      identifierPath schema.uniqueIdentifierFields entity,
    body := none }

/-- `handleDelete(entity)`, given the result of `window.confirm`, the
outcome of its `apiCall` and, when that succeeds, the outcome of the
`fetchEntities()` it triggers.  A declined confirmation does nothing at
all. -/
def handleDelete (schema : EntitySchema) (st : EngineState) (entity : Record)
    (confirmed : Bool) (apiResult : Except String Unit)
    (fetchResult : Except String (List Record)) : EngineState × List Request :=
  if confirmed then
    let st1 := deleteStart st
    match apiResult with
    | Except.ok _ =>
        let p := fetchEntities schema st1 fetchResult
        (p.1, deleteRequest schema entity :: p.2)
    | Except.error msg =>
        ({ st1 with
            error := "Failed to delete " ++ schema.entityName ++ ": " ++ msg },
         [deleteRequest schema entity])
  else (st, [])

/-- `handleCancelEdit()`: clears the draft, leaves edit mode, clears
`editId`, `editIdentifier` and `error`.  It issues no request. -/
def handleCancelEdit (st : EngineState) : EngineState × List Request :=
  ({ st with
     formData := [],
     isEditing := false,
     editId := none,
     editIdentifier := [],
     error := "" }, [])

/-- The Supplier schema (`SupplierManager.jsx`): a one-field natural
identifier. -/
def supplierSchema : EntitySchema :=
  { title := "Supplier",
    entityName := "Supplier",
    endpoint := "/suppliers",
    idField := "supplier_id",
    uniqueIdentifierFields := ["supplier_id"],
    formFields := [
      { name := "supplier_id", label := "Supplier ID", type := "text",
        required := true, placeholder := some "e.g., SUP001",
        options := [], defaultValue := none },
      { name := "supplier_name", label := "Supplier Name", type := "text",
        required := true, placeholder := some "e.g., Silicon Inc.",
        options := [], defaultValue := none },
      { name := "contact_person", label := "Contact Person", type := "text",
        required := false, placeholder := some "e.g., John Doe",
        options := [], defaultValue := none },
      { name := "contact_email", label := "Contact Email", type := "email",
        required := false, placeholder := some "e.g., john@example.com",
        options := [], defaultValue := none },
      { name := "contact_phone", label := "Contact Phone", type := "text",
        required := false, placeholder := some "e.g., +1234567890",
        options := [], defaultValue := none },
      { name := "supplier_location_id", label := "Location ID", type := "text",
        required := true, placeholder := some "e.g., LOC001 (must exist)",
        options := [], defaultValue := none }],
    displayFields := [
      { key := "supplier_id", label := "ID" },
      { key := "supplier_name", label := "Name" },
      { key := "contact_person", label := "Contact Person" },
      { key := "contact_email", label := "Email" },
      { key := "supplier_location_id", label := "Location ID" }] }

/-- The Store Limit schema (`StoreLimitManager.jsx`): a two-field composite
identifier. -/
def storeLimitSchema : EntitySchema :=
  { title := "Store Limit",
    entityName := "Store Limit",
    endpoint := "/store_limits",
    idField := "product_id",
    uniqueIdentifierFields := ["product_id", "location_id"],
    formFields := [
      { name := "product_id", label := "Product ID", type := "text",
        required := true, placeholder := some "e.g., PRD003",
        options := [], defaultValue := none },
      { name := "location_id", label := "Location ID", type := "text",
        required := true, placeholder := some "e.g., LOC004",
        options := [], defaultValue := none },
      { name := "base_limit", label := "Base Limit", type := "number",
        required := true, placeholder := some "e.g., 10",
        options := [], defaultValue := none },
      { name := "max_limit", label := "Max Limit", type := "number",
        required := true, placeholder := some "e.g., 100",
        options := [], defaultValue := none }],
    displayFields := [
      { key := "product_id", label := "Product ID" },
      { key := "location_id", label := "Location ID" },
      { key := "base_limit", label := "Base Limit" },
      { key := "max_limit", label := "Max Limit" }] }

/-- The Raw Material Cost schema (`RawMaterialCostManager.jsx`): a
three-field composite identifier including a `date` field. -/
def rawMaterialCostSchema : EntitySchema :=
  { title := "Raw Material Cost",
    entityName := "Raw Material Cost",
    endpoint := "/raw_material_costs",
    idField := "product_id",
    uniqueIdentifierFields := ["product_id", "supplier_id", "effective_date"],
    formFields := [
      { name := "product_id", label := "Product ID", type := "text",
        required := true, placeholder := some "e.g., PRD001",
        options := [], defaultValue := none },
      { name := "supplier_id", label := "Supplier ID", type := "text",
        required := true, placeholder := some "e.g., SUP001",
        options := [], defaultValue := none },
      { name := "cost_per_unit", label := "Cost Per Unit", type := "number",
        required := true, placeholder := some "e.g., 10.50",
        options := [], defaultValue := none },
      { name := "currency", label := "Currency", type := "text",
        required := false, placeholder := some "e.g., USD",
        options := [], defaultValue := some "USD" },
      { name := "effective_date", label := "Effective Date", type := "date",
        required := true, placeholder := none,
        options := [], defaultValue := none }],
    displayFields := [
      { key := "product_id", label := "Product ID" },
      { key := "supplier_id", label := "Supplier ID" },
      { key := "cost_per_unit", label := "Cost/Unit" },
      { key := "currency", label := "Currency" },
      { key := "effective_date", label := "Effective Date" }] }

/-! ## The transport adapter (`api.js`) -/

/-- The fixed API base URL of `api.js`. -/
def API_BASE_URL : String := "http://localhost:5000/api"

/-- The observable outcome of the `fetch` + `response.json()` pair inside
`apiCall`: either a response whose body parsed (with its `ok` flag), or a
transport-level failure (`fetch` rejected or the body failed to parse),
carrying the underlying message. -/
inductive FetchOutcome where
  | response (ok : Bool) (body : Record)
  | failure (msg : String)

/-- One `console.error` record emitted by `apiCall`'s catch block. -/
structure LogEntry where
  method : String
  url : String
  message : String
deriving DecidableEq

/-- The message of the error `apiCall` throws on a non-ok status:
`result.error || "Something went wrong"`. -/
def errorMessageOf (body : Record) : String :=
  match lookupField body "error" with
  | some v => if truthy v then valueToText v else "Something went wrong"
  | none => "Something went wrong"

/-- `apiCall(endpoint, method, data)` given the fetch outcome: returns the
parsed body on success; on a non-ok status fails with the body's `error`
field (or the generic fallback); on transport failure fails with the
underlying message.  Every failure is logged (method, URL, message) before
it propagates; the log list is the second component. -/
def apiCall (endpoint : String) (method : String) (outcome : FetchOutcome) :
    Except String Record × List LogEntry :=
  let url := API_BASE_URL ++ endpoint
  match outcome with
  | FetchOutcome.response ok body =>
      if ok then (Except.ok body, [])
      else (Except.error (errorMessageOf body),
            [{ method := method, url := url, message := errorMessageOf body }])
  | FetchOutcome.failure msg =>
      (Except.error msg, [{ method := method, url := url, message := msg }])

/-! ## Helper lemmas -/

theorem lookupField_setField (r : Record) (k : String) (v : Value)
    (g : String) :
    lookupField (setField r k v) g = if k = g then some v else lookupField r g := by
  induction r with
  | nil => simp [setField, lookupField]
  | cons kv rest ih =>
    obtain ⟨k', v'⟩ := kv
    by_cases h : k' = k
    · subst h
      by_cases hg : k' = g <;> simp [setField, lookupField, hg]
    · by_cases hg : k' = g
      · subst hg
        simp [setField, lookupField, h, Ne.symm h]
      · simp [setField, lookupField, h, hg, ih]

theorem lookupField_captureIdentifier_of_none (fields : List String)
    (entity : Record) (g : String) (h : lookupField entity g = none) :
    lookupField (captureIdentifier fields entity) g = none := by
  induction fields with
  | nil => simp [captureIdentifier, lookupField]
  | cons f rest ih =>
    by_cases hf : f = g
    · subst hf
      simp [captureIdentifier, h] at *
      simpa [captureIdentifier] using ih
    · cases hv : lookupField entity f with
      | none => simpa [captureIdentifier, hv] using ih
      | some v =>
        simp only [captureIdentifier, List.filterMap_cons, hv, Option.map_some]
        simpa [lookupField, hf, captureIdentifier] using ih

theorem lookupField_captureIdentifier (fields : List String) (entity : Record)
    (g : String) (h : g ∈ fields) :
    lookupField (captureIdentifier fields entity) g = lookupField entity g := by
  induction fields with
  | nil => cases h
  | cons f rest ih =>
    by_cases hf : f = g
    · subst hf
      cases hv : lookupField entity f with
      | none =>
        simpa [captureIdentifier, hv] using
          lookupField_captureIdentifier_of_none rest entity f hv
      | some v =>
        simp [captureIdentifier, hv, lookupField]
    · have hmem : g ∈ rest := by
        cases h with
        | head => exact absurd rfl hf
        | tail _ h' => exact h'
      cases hv : lookupField entity f with
      | none => simpa [captureIdentifier, hv] using ih hmem
      | some v =>
        simp only [captureIdentifier, List.filterMap_cons, hv, Option.map_some]
        simpa [lookupField, hf, captureIdentifier] using ih hmem

/-- The identifier path built from the captured identifier equals the one
built from the original entity. -/
theorem identifierPath_captureIdentifier (fields : List String)
    (entity : Record) :
    identifierPath fields (captureIdentifier fields entity) =
      identifierPath fields entity := by
  unfold identifierPath
  congr 1
  apply List.map_congr_left
  intro f hf
  rw [lookupField_captureIdentifier fields entity f hf]

theorem foldl_inputChange_isEditing (edits : List (String × Value))
    (s : EngineState) :
    (edits.foldl (fun s nv => handleInputChange s nv.1 nv.2) s).isEditing
      = s.isEditing := by
  induction edits generalizing s with
  | nil => rfl
  | cons e rest ih =>
    rw [List.foldl_cons, ih]
    rfl

theorem foldl_inputChange_editIdentifier (edits : List (String × Value))
    (s : EngineState) :
    (edits.foldl (fun s nv => handleInputChange s nv.1 nv.2) s).editIdentifier
      = s.editIdentifier := by
  induction edits generalizing s with
  | nil => rfl
  | cons e rest ih =>
    rw [List.foldl_cons, ih]
    rfl

theorem submitRequest_of_isEditing (schema : EntitySchema) (st : EngineState)
    (h : st.isEditing = true) :
    submitRequest schema st
      = { method := "PUT",
          path := schema.endpoint ++ "/" ++
            identifierPath schema.uniqueIdentifierFields st.editIdentifier,
          body := some st.formData } := by
  unfold submitRequest
  rw [h]
  simp

theorem lookupField_editStep_of_ne (fd : Record) (f : FieldSpec) (n : String)
    (h : f.name ≠ n) :
    lookupField (editStep fd f) n = lookupField fd n := by
  unfold editStep
  by_cases ht : f.type = "date"
  · cases hv : lookupField fd f.name with
    | none => simp [ht, hv]
    | some v =>
      by_cases htr : truthy v
      · simp [ht, hv, htr, lookupField_setField, h]
      · simp [ht, hv, htr]
  · simp [ht]

theorem lookupField_foldl_editStep_of_not_date (l : List FieldSpec)
    (fd : Record) (n : String)
    (h : ∀ fs, fs ∈ l → fs.type = "date" → fs.name ≠ n) :
    lookupField (l.foldl editStep fd) n = lookupField fd n := by
  induction l generalizing fd with
  | nil => rfl
  | cons f rest ih =>
    rw [List.foldl_cons]
    rw [ih _ (fun fs hfs => h fs (List.mem_cons_of_mem _ hfs))]
    by_cases ht : f.type = "date"
    · exact lookupField_editStep_of_ne fd f n (h f (List.mem_cons_self _ _) ht)
    · simp [editStep, ht]

theorem takeWhile_bne_idem (p : Char → Bool) (l : List Char) :
    List.takeWhile p (List.takeWhile p l) = List.takeWhile p l := by
  induction l with
  | nil => rfl
  | cons c cs ih =>
    by_cases h : p c
    · simp [List.takeWhile_cons, h, ih]
    · simp [List.takeWhile_cons, h]

theorem isoToDateOnly_idem (s : String) :
    isoToDateOnly (isoToDateOnly s) = isoToDateOnly s :=
  congrArg String.mk (takeWhile_bne_idem _ _)

theorem takeWhile_until_T (d rest : List Char) (h : 'T' ∉ d) :
    List.takeWhile (fun c => c != 'T') (d ++ 'T' :: rest) = d := by
  induction d with
  | nil => simp [List.takeWhile_cons]
  | cons c cs ih =>
    have hc : c ≠ 'T' := fun hcT => h (by simp [hcT])
    have hcs : 'T' ∉ cs := fun hm => h (List.mem_cons_of_mem _ hm)
    simp [List.takeWhile_cons, hc, ih hcs]

/-- On a string whose character data splits as `d ++ 'T' :: rest` with `d`
free of `'T'` — every ISO-8601 timestamp with its date part `d` — the
date normalization returns exactly the date part. -/
theorem isoToDateOnly_of_data_eq (s : String) (d rest : List Char)
    (hs : s.data = d ++ 'T' :: rest) (h : 'T' ∉ d) :
    isoToDateOnly s = String.mk d := by
  unfold isoToDateOnly
  rw [hs, takeWhile_until_T d rest h]

theorem editStep_lookup_mem (fd : Record) (f : FieldSpec) (n : String)
    (s : String) (hs : s ≠ "")
    (h : lookupField fd n = some (Value.str s) ∨
         lookupField fd n = some (Value.str (isoToDateOnly s))) :
    lookupField (editStep fd f) n = some (Value.str s) ∨
    lookupField (editStep fd f) n = some (Value.str (isoToDateOnly s)) := by
  by_cases hn : f.name = n
  · subst hn
    by_cases ht : f.type = "date"
    · rcases h with h | h
      · right
        simp [editStep, ht, h, truthy, hs, normalizeDateValue,
          lookupField_setField]
      · by_cases he : isoToDateOnly s = ""
        · right
          simp [editStep, ht, h, truthy, he]
        · right
          simp [editStep, ht, h, truthy, he, normalizeDateValue,
            lookupField_setField, isoToDateOnly_idem]
    · simpa [editStep, ht] using h
  · rw [lookupField_editStep_of_ne fd f n hn]
    exact h

theorem foldl_editStep_lookup_mem (l : List FieldSpec) (fd : Record)
    (n : String) (s : String) (hs : s ≠ "")
    (h : lookupField fd n = some (Value.str s) ∨
         lookupField fd n = some (Value.str (isoToDateOnly s))) :
    lookupField (l.foldl editStep fd) n = some (Value.str s) ∨
    lookupField (l.foldl editStep fd) n = some (Value.str (isoToDateOnly s)) := by
  induction l generalizing fd with
  | nil => exact h
  | cons f rest ih =>
    rw [List.foldl_cons]
    exact ih _ (editStep_lookup_mem fd f n s hs h)

theorem editStep_date_normalizes (fd : Record) (f : FieldSpec) (s : String)
    (ht : f.type = "date") (hs : s ≠ "")
    (h : lookupField fd f.name = some (Value.str s) ∨
         lookupField fd f.name = some (Value.str (isoToDateOnly s))) :
    lookupField (editStep fd f) f.name = some (Value.str (isoToDateOnly s)) := by
  rcases h with h | h
  · simp [editStep, ht, h, truthy, hs, normalizeDateValue, lookupField_setField]
  · by_cases he : isoToDateOnly s = ""
    · simp [editStep, ht, h, truthy, he]
    · simp [editStep, ht, h, truthy, he, normalizeDateValue,
        lookupField_setField, isoToDateOnly_idem]

theorem editStep_lookup_normalized (fd : Record) (f : FieldSpec) (n s : String)
    (h : lookupField fd n = some (Value.str (isoToDateOnly s))) :
    lookupField (editStep fd f) n = some (Value.str (isoToDateOnly s)) := by
  by_cases hn : f.name = n
  · subst hn
    by_cases ht : f.type = "date"
    · by_cases he : isoToDateOnly s = ""
      · simp [editStep, ht, h, truthy, he]
      · simp [editStep, ht, h, truthy, he, normalizeDateValue,
          lookupField_setField, isoToDateOnly_idem]
    · simpa [editStep, ht] using h
  · rw [lookupField_editStep_of_ne fd f n hn]
    exact h

theorem foldl_editStep_lookup_normalized (l : List FieldSpec) (fd : Record)
    (n s : String)
    (h : lookupField fd n = some (Value.str (isoToDateOnly s))) :
    lookupField (l.foldl editStep fd) n = some (Value.str (isoToDateOnly s)) := by
  induction l generalizing fd with
  | nil => exact h
  | cons f rest ih =>
    rw [List.foldl_cons]
    exact ih _ (editStep_lookup_normalized fd f n s h)

/-! ## Claims -/

/-- C1: for every entity schema and every record, the URL path used for an
update (PUT) or delete (DELETE) equals the record's
`uniqueIdentifierFields` values joined by "/" in the schema's declared
field order — never alphabetized (the record's own field order is
irrelevant), never re-derived from live form input (the PUT path depends
only on the captured `editIdentifier`, for any form draft) — uniformly for
the 1-field Supplier, 2-field StoreLimit and 3-field RawMaterialCost
schemas; in particular deleting the StoreLimit record
`{product_id: "PRD003", location_id: "LOC004"}` issues
`DELETE /store_limits/PRD003/LOC004`. -/
theorem identifierPath_schema_order :
    (∀ (a : String) (rest : Record),
      (deleteRequest supplierSchema (("supplier_id", Value.str a) :: rest)).path
        = "/suppliers/" ++ a) ∧
    (∀ (a b : String) (rest : Record),
      (deleteRequest storeLimitSchema
          (("product_id", Value.str a) :: ("location_id", Value.str b) :: rest)).path
        = "/store_limits/" ++ a ++ "/" ++ b) ∧
    (∀ (a b : String) (rest : Record),
      (deleteRequest storeLimitSchema
          (("location_id", Value.str b) :: ("product_id", Value.str a) :: rest)).path
        = "/store_limits/" ++ a ++ "/" ++ b) ∧
    (∀ (a b c : String) (rest : Record),
      (deleteRequest rawMaterialCostSchema
          (("product_id", Value.str a) :: ("supplier_id", Value.str b) ::
            ("effective_date", Value.str c) :: rest)).path
        = "/raw_material_costs/" ++ a ++ "/" ++ b ++ "/" ++ c) ∧
    (∀ (es : List Record) (fd : Record) (ld : Bool) (err : String)
        (eid : Option Value) (ident : Record),
      (submitRequest supplierSchema ⟨es, fd, ld, err, true, eid, ident⟩).path
        = "/suppliers/" ++ identifierPath supplierSchema.uniqueIdentifierFields ident ∧
      (submitRequest storeLimitSchema ⟨es, fd, ld, err, true, eid, ident⟩).path
        = "/store_limits/" ++
            identifierPath storeLimitSchema.uniqueIdentifierFields ident ∧
      (submitRequest rawMaterialCostSchema ⟨es, fd, ld, err, true, eid, ident⟩).path
        = "/raw_material_costs/" ++
            identifierPath rawMaterialCostSchema.uniqueIdentifierFields ident) ∧
    (deleteRequest storeLimitSchema
        [("product_id", Value.str "PRD003"), ("location_id", Value.str "LOC004")]).path
      = "/store_limits/PRD003/LOC004" := by
  refine ⟨?_, ?_, ?_, ?_, ?_, ?_⟩
  · intro a rest
    simp [deleteRequest, identifierPath, supplierSchema, lookupField,
      joinSlash, valueToPathText, valueToText]
  · intro a b rest
    simp [deleteRequest, identifierPath, storeLimitSchema, lookupField,
      joinSlash, valueToPathText, valueToText, String.append_assoc]
  · intro a b rest
    simp [deleteRequest, identifierPath, storeLimitSchema, lookupField,
      joinSlash, valueToPathText, valueToText, String.append_assoc]
  · intro a b c rest
    simp [deleteRequest, identifierPath, rawMaterialCostSchema, lookupField,
      joinSlash, valueToPathText, valueToText, String.append_assoc]
  · intro es fd ld err eid ident
    refine ⟨?_, ?_, ?_⟩ <;>
      simp [submitRequest, supplierSchema, storeLimitSchema, rawMaterialCostSchema]
  · decide

/-- C3: if `fetchEntities` fails, the records after the call equal the
records before the call and `error` carries the human-readable fetch
message; `loading` is true (and `error` empty) exactly while the request
is in flight and is reset to false on every exit path, success or
failure. -/
theorem fetch_failure_preserves_records (schema : EntitySchema)
    (st : EngineState) (result : Except String (List Record)) (msg : String)
    (data : List Record) :
    (fetchStart st).loading = true ∧
    (fetchStart st).error = "" ∧
    (fetchEntities schema st result).1.loading = false ∧
    (fetchEntities schema st (Except.error msg)).1.entities = st.entities ∧
    (fetchEntities schema st (Except.error msg)).1.error
      = "Failed to fetch " ++ schema.entityName ++ "s: " ++ msg ∧
    (fetchEntities schema st (Except.ok data)).1.entities = data := by
  refine ⟨rfl, rfl, ?_, rfl, rfl, rfl⟩
  cases result <;> rfl

/-- C5 counterexample: submitting a draft that the backend rejects with
`{error: "duplicate"}` does not set `error` to the bare string
`"duplicate"` — the engine prefixes the save-failure message. -/
theorem submit_duplicate_error_prefixed :
    (handleSubmit supplierSchema
        { initialState with formData := [("supplier_id", Value.str "SUP001")] }
        (Except.error "duplicate") (Except.ok [])).1.error ≠ "duplicate" := by
  decide

/-- C5 (amended): if a submit is rejected by the backend with response body
`{error: "duplicate"}` (so the transport fails with message "duplicate"),
the draft is left unchanged, `error` is set to
`"Failed to save " ++ entityName ++ ": duplicate"` — a message containing
"duplicate", not the bare string — and the mode (and the rest of the
state) remains whatever it was before the submission. -/
theorem submit_failure_retains_draft (schema : EntitySchema)
    (st : EngineState) (fr : Except String (List Record)) :
    (handleSubmit schema st (Except.error "duplicate") fr).1.formData
        = st.formData ∧
    (handleSubmit schema st (Except.error "duplicate") fr).1.isEditing
        = st.isEditing ∧
    (handleSubmit schema st (Except.error "duplicate") fr).1.error
        = "Failed to save " ++ schema.entityName ++ ": " ++ "duplicate" ∧
    (handleSubmit schema st (Except.error "duplicate") fr).1.entities
        = st.entities ∧
    (handleSubmit schema st (Except.error "duplicate") fr).1.editIdentifier
        = st.editIdentifier := by
  exact ⟨rfl, rfl, rfl, rfl, rfl⟩

/-- C4: on submit success (in either mode) the engine clears the draft,
resets the mode to Add, clears `editId` and `editIdentifier`, and
triggers `fetchEntities` (its `GET` follows the submit request);
in particular, submitting the Add-mode draft
`{supplier_id: "SUP001", supplier_name: "Silicon Inc.",
supplier_location_id: "LOC001"}` against the Supplier schema issues
`POST /suppliers` with that body and, on success, exactly one
`GET /suppliers` follows. -/
theorem submit_success_resets_and_refetches :
    (∀ (schema : EntitySchema) (st : EngineState)
        (fr : Except String (List Record)),
      (handleSubmit schema st (Except.ok ()) fr).1.formData = [] ∧
      (handleSubmit schema st (Except.ok ()) fr).1.isEditing = false ∧
      (handleSubmit schema st (Except.ok ()) fr).1.editId = none ∧
      (handleSubmit schema st (Except.ok ()) fr).1.editIdentifier = [] ∧
      (handleSubmit schema st (Except.ok ()) fr).2
        = [submitRequest schema (submitStart st), fetchRequest schema]) ∧
    (∀ (es : List Record) (fr : Except String (List Record)),
      (handleSubmit supplierSchema
          { initialState with
            entities := es,
            loading := false,
            formData := [("supplier_id", Value.str "SUP001"),
                         ("supplier_name", Value.str "Silicon Inc."),
                         ("supplier_location_id", Value.str "LOC001")] }
          (Except.ok ()) fr).2
        = [{ method := "POST", path := "/suppliers",
             body := some [("supplier_id", Value.str "SUP001"),
                           ("supplier_name", Value.str "Silicon Inc."),
                           ("supplier_location_id", Value.str "LOC001")] },
           { method := "GET", path := "/suppliers", body := none }] ∧
      (List.filter (fun r => r.method == "GET")
          (handleSubmit supplierSchema
            { initialState with
              entities := es,
              loading := false,
              formData := [("supplier_id", Value.str "SUP001"),
                           ("supplier_name", Value.str "Silicon Inc."),
                           ("supplier_location_id", Value.str "LOC001")] }
            (Except.ok ()) fr).2).length = 1) := by
  constructor
  · intro schema st fr
    cases fr <;> exact ⟨rfl, rfl, rfl, rfl, rfl⟩
  · intro es fr
    cases fr <;> exact ⟨rfl, rfl⟩

/-- C2: from the moment `handleEdit r` runs until the edit mode ends, the
identifier tuple used to address the server for the edit-mode PUT equals
`r`'s `uniqueIdentifierFields` values captured at edit start, in schema
order, regardless of later edits to the draft's identifier-field inputs
(any sequence of `handleInputChange` events); and `handleEdit r` followed
by submit with no field modified issues an update whose body is the draft
copied from `r`, agreeing with `r` on every field not named by a
date-typed form field. -/
theorem editIdentifier_capture_stable (schema : EntitySchema)
    (st : EngineState) (r : Record) (edits : List (String × Value)) :
    (handleEdit schema st r).isEditing = true ∧
    (∀ f, f ∈ schema.uniqueIdentifierFields →
      lookupField (handleEdit schema st r).editIdentifier f
        = lookupField r f) ∧
    (edits.foldl (fun s nv => handleInputChange s nv.1 nv.2)
        (handleEdit schema st r)).editIdentifier
      = (handleEdit schema st r).editIdentifier ∧
    (edits.foldl (fun s nv => handleInputChange s nv.1 nv.2)
        (handleEdit schema st r)).isEditing = true ∧
    (submitRequest schema
        (submitStart (edits.foldl (fun s nv => handleInputChange s nv.1 nv.2)
          (handleEdit schema st r)))).path
      = schema.endpoint ++ "/" ++
          identifierPath schema.uniqueIdentifierFields r ∧
    (submitRequest schema (submitStart (handleEdit schema st r))).body
      = some (handleEdit schema st r).formData ∧
    (∀ n, (∀ fs, fs ∈ schema.formFields → fs.type = "date" → fs.name ≠ n) →
      lookupField (handleEdit schema st r).formData n = lookupField r n) := by
  have hid : (handleEdit schema st r).editIdentifier
      = captureIdentifier schema.uniqueIdentifierFields r := rfl
  have hedits := foldl_inputChange_editIdentifier edits (handleEdit schema st r)
  have hmode := foldl_inputChange_isEditing edits (handleEdit schema st r)
  refine ⟨rfl, ?_, hedits, ?_, ?_, rfl, ?_⟩
  · intro f hf
    rw [hid, lookupField_captureIdentifier _ _ _ hf]
  · rw [hmode]
    rfl
  · have hm2 : (submitStart (edits.foldl
        (fun s nv => handleInputChange s nv.1 nv.2)
        (handleEdit schema st r))).isEditing = true := by
      show (edits.foldl (fun s nv => handleInputChange s nv.1 nv.2)
        (handleEdit schema st r)).isEditing = true
      rw [hmode]
      rfl
    rw [submitRequest_of_isEditing schema _ hm2]
    show schema.endpoint ++ "/" ++
        identifierPath schema.uniqueIdentifierFields
          (edits.foldl (fun s nv => handleInputChange s nv.1 nv.2)
            (handleEdit schema st r)).editIdentifier = _
    rw [hedits, hid, identifierPath_captureIdentifier]
  · intro n hn
    exact lookupField_foldl_editStep_of_not_date schema.formFields r n hn

/-- C2 witness: editing the Supplier record
`{supplier_id: "SUP001", supplier_name: "Silicon Inc."}` captures the
identifier value "SUP001" and copies the name field unchanged into the
draft. -/
theorem editIdentifier_capture_stable_witness :
    lookupField (handleEdit supplierSchema initialState
        [("supplier_id", Value.str "SUP001"),
         ("supplier_name", Value.str "Silicon Inc.")]).editIdentifier
        "supplier_id"
      = some (Value.str "SUP001") ∧
    lookupField (handleEdit supplierSchema initialState
        [("supplier_id", Value.str "SUP001"),
         ("supplier_name", Value.str "Silicon Inc.")]).formData
        "supplier_name"
      = some (Value.str "Silicon Inc.") := by
  constructor
  · have h := (editIdentifier_capture_stable supplierSchema initialState
        [("supplier_id", Value.str "SUP001"),
         ("supplier_name", Value.str "Silicon Inc.")] []).2.1
        "supplier_id" (by decide)
    rw [h]
    decide
  · have h := (editIdentifier_capture_stable supplierSchema initialState
        [("supplier_id", Value.str "SUP001"),
         ("supplier_name", Value.str "Silicon Inc.")] []).2.2.2.2.2.2
        "supplier_name" (by decide)
    rw [h]
    decide

/-- C8: the transport adapter `apiCall`, on a response with a non-success
status code, fails with the `error` field read from the parsed response
body when present (and truthy) and otherwise with the generic fallback
message; on any transport-level failure it fails with the underlying
message; and every failure is logged with method, full URL and the very
message that propagates to the caller. -/
theorem apiCall_error_propagation (ep m : String) (body : Record)
    (msg s : String) :
    apiCall ep m (FetchOutcome.response true body) = (Except.ok body, []) ∧
    (lookupField body "error" = some (Value.str s) → s ≠ "" →
      apiCall ep m (FetchOutcome.response false body)
        = (Except.error s,
           [{ method := m, url := API_BASE_URL ++ ep, message := s }])) ∧
    (lookupField body "error" = none →
      apiCall ep m (FetchOutcome.response false body)
        = (Except.error "Something went wrong",
           [{ method := m, url := API_BASE_URL ++ ep,
              message := "Something went wrong" }])) ∧
    apiCall ep m (FetchOutcome.failure msg)
      = (Except.error msg,
         [{ method := m, url := API_BASE_URL ++ ep, message := msg }]) ∧
    (∀ (outcome : FetchOutcome) (e : String),
      (apiCall ep m outcome).1 = Except.error e →
      (apiCall ep m outcome).2
        = [{ method := m, url := API_BASE_URL ++ ep, message := e }]) := by
  refine ⟨rfl, ?_, ?_, rfl, ?_⟩
  · intro h hs
    simp [apiCall, errorMessageOf, h, truthy, hs, valueToText]
  · intro h
    simp [apiCall, errorMessageOf, h]
  · intro outcome e he
    cases outcome with
    | response ok body' =>
      cases ok with
      | true => simp [apiCall] at he
      | false =>
        simp only [apiCall] at he ⊢
        simp at he
        rw [he]
        rfl
    | failure msg' =>
      simp only [apiCall] at he ⊢
      simp at he
      rw [he]

/-- C8 witness: a rejected response with body `{error: "duplicate"}` fails
with message "duplicate" and logs it with the method and URL. -/
theorem apiCall_error_propagation_witness :
    apiCall "/suppliers" "POST"
        (FetchOutcome.response false [("error", Value.str "duplicate")])
      = (Except.error "duplicate",
         [{ method := "POST", url := API_BASE_URL ++ "/suppliers",
            message := "duplicate" }]) :=
  (apiCall_error_propagation "/suppliers" "POST"
      [("error", Value.str "duplicate")] "" "duplicate").2.1
    (by decide) (by decide)

/-- C6: `handleCancelEdit` clears the draft, resets the mode to Add, clears
`editId` and `editIdentifier` and clears `error`; it is a pure state
transition that issues no network request and leaves the records and the
loading flag unchanged. -/
theorem cancelEdit_pure_reset (st : EngineState) :
    (handleCancelEdit st).1.formData = [] ∧
    (handleCancelEdit st).1.isEditing = false ∧
    (handleCancelEdit st).1.editId = none ∧
    (handleCancelEdit st).1.editIdentifier = [] ∧
    (handleCancelEdit st).1.error = "" ∧
    (handleCancelEdit st).2 = [] ∧
    (handleCancelEdit st).1.entities = st.entities ∧
    (handleCancelEdit st).1.loading = st.loading :=
  ⟨rfl, rfl, rfl, rfl, rfl, rfl, rfl, rfl⟩

/-- C9: every engine operation that issues a network request —
`fetchEntities`, `handleSubmit` and a confirmed `handleDelete` — clears
the error string before the request is sent (the in-flight states
`fetchStart`, `submitStart`, `deleteStart` all have empty `error`), so a
previous operation's error message is always discarded at the start of
the next attempt: the error after the operation is the new failure
message on failure and empty on success, independent of the prior error. -/
theorem error_cleared_before_request (schema : EntitySchema)
    (st : EngineState) (e msg : String) (entity : Record)
    (data : List Record) (fr : Except String (List Record)) :
    (fetchStart { st with error := e }).error = "" ∧
    (submitStart { st with error := e }).error = "" ∧
    (deleteStart { st with error := e }).error = "" ∧
    (fetchEntities schema { st with error := e } (Except.ok data)).1.error = "" ∧
    (fetchEntities schema { st with error := e } (Except.error msg)).1.error
      = "Failed to fetch " ++ schema.entityName ++ "s: " ++ msg ∧
    (handleSubmit schema { st with error := e }
        (Except.ok ()) (Except.ok data)).1.error = "" ∧
    (handleSubmit schema { st with error := e }
        (Except.error msg) fr).1.error
      = "Failed to save " ++ schema.entityName ++ ": " ++ msg ∧
    (handleDelete schema { st with error := e } entity true
        (Except.ok ()) (Except.ok data)).1.error = "" ∧
    (handleDelete schema { st with error := e } entity true
        (Except.error msg) fr).1.error
      = "Failed to delete " ++ schema.entityName ++ ": " ++ msg :=
  ⟨rfl, rfl, rfl, rfl, rfl, rfl, rfl, rfl, rfl⟩

/-- C10: if the user declines the delete confirmation prompt,
`handleDelete` performs no network request and leaves every component of
the engine state unchanged. -/
theorem delete_declined_noop (schema : EntitySchema) (st : EngineState)
    (entity : Record) (apiResult : Except String Unit)
    (fetchResult : Except String (List Record)) :
    handleDelete schema st entity false apiResult fetchResult = (st, []) :=
  rfl

/-- C7: for every FieldSpec of type `date`, `handleEdit` normalizes the
corresponding draft value from an ISO-8601 timestamp to its date-only
`YYYY-MM-DD` part: the draft value becomes `isoToDateOnly` of the stored
value, and on every string whose character data is a date part free of
`'T'` followed by `'T'` and a time suffix, `isoToDateOnly` returns
exactly the date part; in particular, loading a RawMaterialCost record
with `effective_date = "2024-03-05T00:00:00Z"` into edit mode yields
`draft.effective_date = "2024-03-05"`. -/
theorem date_normalization :
    (∀ (schema : EntitySchema) (st : EngineState) (r : Record)
        (fs : FieldSpec) (s : String),
      fs ∈ schema.formFields → fs.type = "date" →
      lookupField r fs.name = some (Value.str s) → s ≠ "" →
      lookupField (handleEdit schema st r).formData fs.name
        = some (Value.str (isoToDateOnly s))) ∧
    (∀ (s : String) (d rest : List Char),
      s.data = d ++ 'T' :: rest → 'T' ∉ d →
      isoToDateOnly s = String.mk d) ∧
    lookupField (handleEdit rawMaterialCostSchema initialState
        [("_id", Value.str "66f0a1"),
         ("product_id", Value.str "PRD001"),
         ("supplier_id", Value.str "SUP001"),
         ("cost_per_unit", Value.num 12),
         ("currency", Value.str "USD"),
         ("effective_date", Value.str "2024-03-05T00:00:00Z")]).formData
        "effective_date"
      = some (Value.str "2024-03-05") := by
  refine ⟨?_, ?_, ?_⟩
  · intro schema st r fs s hmem ht hv hs
    obtain ⟨l1, l2, hsplit⟩ := List.append_of_mem hmem
    show lookupField (schema.formFields.foldl editStep r) fs.name
      = some (Value.str (isoToDateOnly s))
    rw [hsplit, List.foldl_append, List.foldl_cons]
    apply foldl_editStep_lookup_normalized
    apply editStep_date_normalizes _ _ _ ht hs
    exact foldl_editStep_lookup_mem l1 r fs.name s hs (Or.inl hv)
  · intro s d rest hsdata hd
    exact isoToDateOnly_of_data_eq s d rest hsdata hd
  · decide

/-- C7 witness: the general normalization statement applied to the
RawMaterialCost schema, its `effective_date` field and the stored value
`"2024-03-05T00:00:00Z"`. -/
theorem date_normalization_witness :
    lookupField (handleEdit rawMaterialCostSchema initialState
        [("effective_date", Value.str "2024-03-05T00:00:00Z")]).formData
        "effective_date"
      = some (Value.str (isoToDateOnly "2024-03-05T00:00:00Z")) :=
  date_normalization.1 rawMaterialCostSchema initialState
    [("effective_date", Value.str "2024-03-05T00:00:00Z")]
    { name := "effective_date", label := "Effective Date", type := "date",
      required := true, placeholder := none, options := [],
      defaultValue := none }
    "2024-03-05T00:00:00Z" (by decide) rfl (by decide) (by decide)

end EntityCRUD
